/-
Verification of the motion-capture CSV cleaning pipeline
(Step2_data_clean_recursive.py / data_clean_v1.py and Step4_trim.py).

The Python scripts are shallowly embedded: tables are lists of rows, cells
carry either the raw string (Frame column), a parsed rational number, or a
missing-value marker standing for NaN.  Machine floats are modelled by the
rationals; the claims under test are structural and do not depend on
rounding.  Fallible operations (exceptions in the scripts) are modelled with
Option or with an explicit Outcome type.
-/
import Mathlib

/-! ### Character and string helpers

The scripts manipulate Python strings; the needed operations are embedded on
`List Char` so that every definition reduces by kernel computation. -/

/-- Whitespace characters removed by the Python `str.strip` used in the
header scan (the data only ever carries plain spaces). -/
def isSpaceChar (c : Char) : Bool :=
  decide (c = ' ') || decide (c = '\t') || decide (c = '\n') || decide (c = '\r')

/-- Python `str.strip`: drop whitespace on both ends. -/
def stripChars (l : List Char) : List Char :=
  ((l.dropWhile isSpaceChar).reverse.dropWhile isSpaceChar).reverse

/-- Python `str.lower` on an ASCII character. -/
def toLowerCh (c : Char) : Char :=
  if 'A' ≤ c then (if c ≤ 'Z' then Char.ofNat (c.toNat + 32) else c) else c

/-- Does the string start with the given pattern (Python `str.startswith`)? -/
def startsWithL : List Char → List Char → Bool
  | [], _ => true
  | _ :: _, [] => false
  | p :: ps, c :: cs => if p = c then startsWithL ps cs else false

/-- Substring containment, used for the unanchored regex search for `*1`. -/
def containsSubChars (pat : List Char) : List Char → Bool
  | [] => pat.isEmpty
  | c :: cs => startsWithL pat (c :: cs) || containsSubChars pat cs

/-- Numeric value of a run of decimal digit characters. -/
def digitsToNat (l : List Char) : Nat :=
  l.foldl (fun a c => 10 * a + (c.toNat - 48)) 0

/-- Are all characters decimal digits? -/
def allDigits (l : List Char) : Bool := l.all Char.isDigit

/-- Python `str.split "."`: splitting an empty string yields one empty part. -/
def splitOnDot : List Char → List (List Char)
  | [] => [[]]
  | c :: cs =>
    if c = '.' then [] :: splitOnDot cs
    else
      match splitOnDot cs with
      | [] => [[c]]
      | h :: t => (c :: h) :: t

/-- Python `str.replace " " ""`: remove every space. -/
def stripSpaces (l : List Char) : List Char := l.filter (fun c => !(decide (c = ' ')))

/-- Modelled core of Python `float` on an unsigned literal: decimal digits
with at most one dot and at least one digit overall.  Exponents, `inf`,
`nan` and underscore grouping never occur in the data handled by the
scripts and are rejected (Python would map `nan` to NaN, which is a missing
value here as well). -/
def pyFloatUnsigned (l : List Char) : Option ℚ :=
  match splitOnDot l with
  | [ip] => if allDigits ip && !ip.isEmpty then some ((digitsToNat ip : ℚ)) else none
  | [ip, fp] =>
    if allDigits ip && allDigits fp && !(ip.isEmpty && fp.isEmpty) then
      some ((digitsToNat ip : ℚ) + (digitsToNat fp : ℚ) / ((10 : ℚ) ^ fp.length))
    else none
  | _ => none

/-- Modelled Python `float` including an optional sign. -/
def pyFloat (l : List Char) : Option ℚ :=
  match l with
  | '-' :: rest => (pyFloatUnsigned rest).map (fun q => -q)
  | '+' :: rest => pyFloatUnsigned rest
  | _ => pyFloatUnsigned l

/-- Embedding of `parse_val` from `Step2_data_clean_recursive.py` (identical
in `data_clean_v1.py`): remove spaces, and when the string holds more than
one dot treat all but the last dot-separated segment as thousands groups;
`none` models the `np.nan` returned on any parse failure. -/
def parse_val (s : String) : Option ℚ :=
  let l := stripSpaces s.data
  let parts := splitOnDot l
  pyFloat (if parts.length > 2 then (parts.dropLast).flatten ++ ('.' :: parts.getLastD []) else l)

/-! ### Column labels and cells -/

/-- A coordinate axis from the second header row. -/
inductive Axis
  | X
  | Y
  | Z
deriving DecidableEq

/-- Semantic column label produced by the header scan: `Frame`, a marker
axis column (Python string `id_axis`, where `id` is the digit string of
the tag kept verbatim: a tag `*06` labels its columns `06_X` and so on),
or an unknown column `unk_pos`. -/
inductive Col
  | Frame
  | marker (id : List Char) (axis : Axis)
  | unk (pos : Nat)
deriving DecidableEq

/-- A table cell after the parsing pass: the Frame column keeps its raw
string, the other columns hold a parsed rational or NaN (missing). -/
inductive Cell
  | raw (s : String)
  | num (q : ℚ)
  | missing
deriving DecidableEq

/-- `pd.isna` on a cell. -/
def Cell.isna : Cell → Bool
  | Cell.missing => true
  | _ => false

/-- `pd.isna (row.get label)`: a label absent from the row reads as missing. -/
def isnaO : Option Cell → Bool
  | none => true
  | some c => c.isna

/-- `pd.notna (row.get label)`. -/
def notnaO (o : Option Cell) : Bool := !(isnaO o)

/-- Boolean list membership over any decidable type. -/
def memD {α : Type} [DecidableEq α] (a : α) : List α → Bool
  | [] => false
  | b :: bs => if a = b then true else memD a bs

/-- `row.get label` assuming the pandas convention of unique labels: the
value at the first position whose column label matches, `none` when the
label is absent. -/
def getCol : List Col → List Cell → Col → Option Cell
  | [], _, _ => none
  | _ :: _, [], _ => none
  | c :: cs, v :: vs, t => if c = t then some v else getCol cs vs t

/-- `df.loc[row, label] = value`: write the cell at every position whose
column label matches. -/
def setCol : List Col → List Cell → Col → Cell → List Cell
  | _, [], _, _ => []
  | [], v :: vs, _, _ => v :: vs
  | c :: cs, v :: vs, t, w => (if c = t then w else v) :: setCol cs vs t w

/-! ### Header resolution (Step2 lines 65 to 95) -/

/-- The `*1` search pattern. -/
def star1 : List Char := ['*', '1']

/-- Does any cell of the row contain `*1` (the regex search on each cell)? -/
def rowHasStar1 (r : List String) : Bool :=
  r.any (fun s => containsSubChars star1 s.data)

/-- Embedding of the marker-header search
`df_raw.apply(lambda r: r.str.contains("\*1").any(), axis=1).idxmax()`:
on a nonempty table, `idxmax` returns the first matching row index, and on
an all-False series it returns index 0 rather than raising.  Only an empty
table raises (caught, file skipped), modelled by `none`. -/
def findMarkerHdr (raws : List (List String)) : Option Nat :=
  if raws.isEmpty then none
  else if raws.any rowHasStar1 then some (raws.findIdx rowHasStar1) else some 0

/-- `re.match "\*(\d+)"` on a stripped cell: an asterisk followed by at
least one digit, matched at the start of the string.  The digit string
`m.group(1)` is returned verbatim, exactly as the source stores it in
`current_marker`: a tag `*06` gives the id string `06`, which stays
distinct from `6` in every later label comparison. -/
def parseMarkerTag (l : List Char) : Option (List Char) :=
  match l with
  | '*' :: rest =>
    let ds := rest.takeWhile Char.isDigit
    if ds.isEmpty then none else some ds
  | _ => none

/-- Canonical decimal rendering of a natural number (Python `str` on an
int), written with explicit fuel so that it reduces by kernel
computation. -/
def natToDigitsGo : Nat → Nat → List Char → List Char
  | 0, _, acc => acc
  | fuel + 1, n, acc =>
    if n < 10 then Char.ofNat (n % 10 + 48) :: acc
    else natToDigitsGo fuel (n / 10) (Char.ofNat (n % 10 + 48) :: acc)

/-- Python `str(n)` for a natural number. -/
def natToDigits (n : Nat) : List Char := natToDigitsGo (n + 1) n []

/-- The column label the fill and drop code builds from an integer marker
id: `str(e) + "_" + axis`.  A zero-padded header label such as `06_X`
never equals any such canonical label. -/
def mCol (n : Nat) (ax : Axis) : Col := Col.marker (natToDigits n) ax

/-- Classify a stripped coordinate cell as an axis. -/
def axisOfChars (l : List Char) : Option Axis :=
  if l = ['X'] then some Axis.X
  else if l = ['Y'] then some Axis.Y
  else if l = ['Z'] then some Axis.Z
  else none

/-- Embedding of the column-labelling loop (Step2 lines 75 to 92): walk the
zipped marker and coordinate header rows left to right carrying the current
marker id; a coordinate cell starting with `field` (case-insensitive) gives
`Frame`, otherwise a leading `*digits` tag updates the current marker, an
`X`, `Y` or `Z` cell with a current marker gives the marker axis column,
and anything else gives `unk` tagged with the running column position. -/
def buildCols : Option (List Char) → Nat → List (String × String) → List Col
  | _, _, [] => []
  | cur, pos, (colVal, coord) :: rest =>
    let cv := stripChars colVal.data
    let cd := stripChars coord.data
    if startsWithL ['f', 'i', 'e', 'l', 'd'] (cd.map toLowerCh) then
      Col.Frame :: buildCols cur (pos + 1) rest
    else
      match parseMarkerTag cv with
      | some m =>
        match axisOfChars cd with
        | some ax => Col.marker m ax :: buildCols (some m) (pos + 1) rest
        | none => Col.unk pos :: buildCols (some m) (pos + 1) rest
      | none =>
        match cur, axisOfChars cd with
        | some m, some ax => Col.marker m ax :: buildCols cur (pos + 1) rest
        | _, _ => Col.unk pos :: buildCols cur (pos + 1) rest

/-- The column labels derived from the header pair at `mIdx`, `mIdx + 1`. -/
def headerColsOf (raws : List (List String)) (mIdx : Nat) : List Col :=
  buildCols none 0 ((raws.getD mIdx []).zip (raws.getD (mIdx + 1) []))

/-- The parsing pass (Step2 lines 97 to 99): every cell of a non-Frame
column goes through `parse_val`, the Frame column keeps its raw string.
The pass is modelled positionally; the script iterates column labels,
which coincides with this exactly when the non-Frame labels are unique —
on a duplicated non-Frame label the script instead raises an uncaught
reindex ValueError, which the pipeline models as a crash before this
result is ever used (see `hasDupNonFrame`). -/
def parseRow (cols : List Col) (row : List String) : List Cell :=
  (cols.zip row).map (fun p =>
    if p.1 = Col.Frame then Cell.raw p.2
    else
      match parse_val p.2 with
      | some q => Cell.num q
      | none => Cell.missing)

/-! ### Marker partition (Step2 lines 101 to 102) -/

/-- Is the column an unknown-labelled column? -/
def isUnkCol : Col → Bool
  | Col.unk _ => true
  | _ => false

/-- Does the table contain an unknown-labelled column?  On such a column
`int("unk_pos".split("_")[0])` raises an uncaught ValueError in the script. -/
def hasUnk (cols : List Col) : Bool := cols.any isUnkCol

/-- The integer marker ids named by the columns
(`int(c.split("_")[0])` on each marker label), with repetitions.  Distinct
digit strings with the same value collapse here: `06` and `6` both give
the integer 6. -/
def collectIds (cols : List Col) : List Nat :=
  cols.filterMap (fun c =>
    match c with
    | Col.marker s _ => some (digitsToNat s)
    | _ => none)

/-- Insert into a sorted duplicate-free list of ids. -/
def sortedInsert (n : Nat) : List Nat → List Nat
  | [] => [n]
  | m :: ms =>
    if n < m then n :: m :: ms
    else if n = m then m :: ms
    else m :: sortedInsert n ms

/-- `sorted(set(ids))`. -/
def sortedUnique (l : List Nat) : List Nat := l.foldr sortedInsert []

/-- `extra_markers`: every discovered marker id not in the base set, in
ascending order. -/
def extrasOf (base : List Nat) (cols : List Col) : List Nat :=
  (sortedUnique (collectIds cols)).filter (fun m => !(memD m base))

/-- Is the column label in the drop list `str(e) + "_" + axis` built from
the extra integer ids?  Matching is by the exact label string, so a
zero-padded label such as `06_X` is never matched even though its integer
id is extra. -/
def isExtraCol (extras : List Nat) : Col → Bool
  | Col.marker s _ => memD s (extras.map natToDigits)
  | _ => false

/-- Drop the cells sitting under extra-marker columns (`df.drop(columns)`),
walking labels and cells in parallel. -/
def dropRowCells (extras : List Nat) : List Col → List Cell → List Cell
  | _, [] => []
  | [], v :: vs => v :: vs
  | c :: cs, v :: vs =>
    if isExtraCol extras c then dropRowCells extras cs vs
    else v :: dropRowCells extras cs vs

/-! ### Gap filling (Step2 lines 104 to 115)

`df.iterrows` hands the loop a copy of each row, so all presence checks in
the loop body read the pre-fill snapshot of the row while the writes land
in the dataframe; the embedding keeps the snapshot and the current row
separate for exactly this reason. -/

/-- Is base marker `b` eligible to receive a fill: all three canonical
axis labels `str(b)_X/Y/Z` exist among the columns and all three cells are
missing in the row snapshot? -/
def baseFree (cols : List Col) (snapshot : List Cell) (b : Nat) : Bool :=
  memD (mCol b Axis.X) cols && memD (mCol b Axis.Y) cols &&
  memD (mCol b Axis.Z) cols &&
  isnaO (getCol cols snapshot (mCol b Axis.X)) &&
  isnaO (getCol cols snapshot (mCol b Axis.Y)) &&
  isnaO (getCol cols snapshot (mCol b Axis.Z))

/-- Scan the base markers in order and copy the extra-marker triplet into
the first eligible one, then stop (the `break`). -/
def fillBase (cols : List Col) (snapshot : List Cell) (vx vy vz : Cell) :
    List Nat → List Cell → List Cell
  | [], cur => cur
  | b :: bs, cur =>
    if baseFree cols snapshot b then
      setCol cols (setCol cols (setCol cols cur (mCol b Axis.X) vx)
        (mCol b Axis.Y) vy) (mCol b Axis.Z) vz
    else fillBase cols snapshot vx vy vz bs cur

/-- Process the extra markers of one row in order; availability of an extra
marker and eligibility of a base marker are both read from the snapshot. -/
def fillRowGo (cols : List Col) (base : List Nat) (snapshot : List Cell) :
    List Nat → List Cell → List Cell
  | [], cur => cur
  | e :: es, cur =>
    fillRowGo cols base snapshot es
      (if notnaO (getCol cols snapshot (mCol e Axis.X)) &&
          notnaO (getCol cols snapshot (mCol e Axis.Y)) &&
          notnaO (getCol cols snapshot (mCol e Axis.Z)) then
        fillBase cols snapshot
          ((getCol cols snapshot (mCol e Axis.X)).getD Cell.missing)
          ((getCol cols snapshot (mCol e Axis.Y)).getD Cell.missing)
          ((getCol cols snapshot (mCol e Axis.Z)).getD Cell.missing) base cur
      else cur)

/-- The per-row gap fill: the row itself is the snapshot. -/
def fillRow (cols : List Col) (base extras : List Nat) (row : List Cell) : List Cell :=
  fillRowGo cols base row extras row

/-! ### The per-file pipeline (Step2 `clean_csv`) -/

/-- Does the list contain a repeated element? -/
def hasDup {α : Type} [DecidableEq α] : List α → Bool
  | [] => false
  | x :: xs => memD x xs || hasDup xs

/-- Is some non-Frame column label duplicated?  The parse loop then
evaluates `df[col].apply(parse_val)` on a two-column frame and assigning
the resulting duplicate-indexed series back raises an uncaught
cannot-reindex-from-a-duplicate-axis ValueError.  The Frame label itself
is skipped by the loop, so duplicated Frame columns are harmless. -/
def hasDupNonFrame (cols : List Col) : Bool :=
  hasDup (cols.filter (fun c => !(decide (c = Col.Frame))))

/-- Outcome of processing one file: a caught failure in the header search
(file skipped), an uncaught exception (fatal to the whole run), or the
cleaned table. -/
inductive Outcome
  | headerFail
  | crash
  | cleaned (cols : List Col) (rows : List (List Cell))
deriving DecidableEq

/-- The reconciliation stage (Step2 lines 101 to 121) on a labelled parsed
table: derive the marker partition, gap-fill every row, and drop the
extra-marker columns.  `none` models the uncaught ValueError raised by
`int("unk_pos".split("_")[0])` when an unknown-labelled column exists. -/
def reconcile (base : List Nat) (cols : List Col) (rows : List (List Cell)) :
    Option (List Col × List (List Cell)) :=
  if hasUnk cols then none
  else
    some (cols.filter (fun c => !(isExtraCol (extrasOf base cols) c)),
      (rows.map (fillRow cols base (extrasOf base cols))).map
        (dropRowCells (extrasOf base cols) cols))

/-- Embedding of `clean_csv` after the file has been read: locate the
header pair, label the columns, parse the data rows, reconcile.  A header
row found on the last table row makes `df_raw.iloc[coord_hdr_idx]` raise
an uncaught IndexError, hence `crash` when no coordinate row exists; a
duplicated non-Frame label makes the parse loop raise an uncaught
reindex ValueError before the marker partition is ever derived, hence
`crash` as well. -/
def clean_csv_model (base : List Nat) (raws : List (List String)) : Outcome :=
  match findMarkerHdr raws with
  | none => Outcome.headerFail
  | some mIdx =>
    if mIdx + 1 < raws.length then
      if hasDupNonFrame (headerColsOf raws mIdx) then Outcome.crash
      else
        match reconcile base (headerColsOf raws mIdx)
            ((raws.drop (mIdx + 2)).map (parseRow (headerColsOf raws mIdx))) with
        | none => Outcome.crash
        | some (cs, rs) => Outcome.cleaned cs rs
    else Outcome.crash

/-- Columns of a cleaned outcome. -/
def outColsOf : Outcome → List Col
  | Outcome.cleaned cs _ => cs
  | _ => []

/-- Rows of a cleaned outcome. -/
def outRowsOf : Outcome → List (List Cell)
  | Outcome.cleaned _ rs => rs
  | _ => []

/-- The batch loop at the bottom of Step2: files are processed in order;
`headerFail` is caught and only skips the file, while `crash` is an
uncaught exception that aborts the remaining files.  Returns the outcomes
of the files actually processed and whether the run was aborted. -/
def run_batch (base : List Nat) : List (List (List String)) → List Outcome × Bool
  | [] => ([], false)
  | f :: fs =>
    match clean_csv_model base f with
    | Outcome.crash => ([Outcome.crash], true)
    | o =>
      let r := run_batch base fs
      (o :: r.1, r.2)

/-! ### Movement trimming (Step4 `compute_trimmed_df`) -/

/-- A clean numeric table as read by Step4: named columns and rational
rows (the interpolated input carries no missing values). -/
structure DF where
  cols : List String
  rows : List (List ℚ)
deriving DecidableEq

/-- The two computation-internal helper column names of Step4. -/
def helperNames : List String := ["frame_distance", "rolling_mean_movement"]

/-- Is the name one of the helper columns? -/
def isHelperName (c : String) : Bool := memD c helperNames

/-- Step4 marker-column selection: any column whose name contains `_X`,
`_Y` or `_Z` as a substring. -/
def isMarkerCol (c : String) : Bool :=
  containsSubChars ['_', 'X'] c.data || containsSubChars ['_', 'Y'] c.data ||
  containsSubChars ['_', 'Z'] c.data

/-- Restrict a row to the marker columns. -/
def selectMarkers (cols : List String) (r : List ℚ) : List ℚ :=
  ((cols.zip r).filter (fun p => isMarkerCol p.1)).map Prod.snd

/-- The per-frame distance list: 0 for frame 0, then the distance between
consecutive marker rows.  `dist` is a parameter standing for
`np.linalg.norm(row_i - row_im1)`; the Euclidean norm is irrational in
general, and the trimming logic is proved for every distance function. -/
def distList (dist : List ℚ → List ℚ → ℚ) (mrows : List (List ℚ)) : List ℚ :=
  match mrows with
  | [] => [0]
  | _ :: tl => 0 :: (tl.zip mrows).map (fun p => dist p.1 p.2)

/-- `WINDOW_SIZE` from Step4. -/
def WINDOW_SIZE : Nat := 60

/-- `MOVEMENT_THRESHOLD` from Step4. -/
def MOVEMENT_THRESHOLD : ℚ := 3

/-- `rolling(w).mean()`: undefined (NaN) before `w` samples are available,
afterwards the mean of the trailing window of `w` values. -/
def rollingMean (w : Nat) (xs : List ℚ) : List (Option ℚ) :=
  (List.range xs.length).map (fun i =>
    if i + 1 < w then none
    else some ((((xs.drop (i + 1 - w)).take w).foldl (· + ·) 0) / (w : ℚ)))

/-- Total list lookup into the rolling-mean series (`none` past the end). -/
def nthO (l : List (Option ℚ)) (i : Nat) : Option ℚ :=
  match l, i with
  | [], _ => none
  | x :: _, 0 => x
  | _ :: xs, i + 1 => nthO xs i

/-- Does the rolling mean at index `i` exceed the threshold?  A NaN
(missing) rolling mean compares as False, exactly as in pandas. -/
def exceedsB (rm : List (Option ℚ)) (t : ℚ) (i : Nat) : Bool :=
  ((nthO rm i).map (fun v => decide (t < v))).getD false

/-- `df[df["rolling_mean_movement"] > MOVEMENT_THRESHOLD].index`. -/
def threshold_crossed (rm : List (Option ℚ)) (t : ℚ) : List Nat :=
  (List.range rm.length).filter (exceedsB rm t)

/-- The rolling-mean movement series of a table. -/
def rmOf (dist : List ℚ → List ℚ → ℚ) (df : DF) : List (Option ℚ) :=
  rollingMean WINDOW_SIZE (distList dist (df.rows.map (selectMarkers df.cols)))

/-- The crossed-threshold index list of a table. -/
def crossedOf (dist : List ℚ → List ℚ → ℚ) (df : DF) : List Nat :=
  threshold_crossed (rmOf dist df) MOVEMENT_THRESHOLD

/-- `threshold_crossed[-1]` guarded by the emptiness test. -/
def lastO : List Nat → Option Nat
  | [] => none
  | [a] => some a
  | _ :: b :: t => lastO (b :: t)

/-- Keep frames `[0, lastActive]` when a last active frame exists. -/
def trimRows (rows : List (List ℚ)) (c : Option Nat) : List (List ℚ) :=
  match c with
  | some la => rows.take (la + 1)
  | none => rows

/-- Drop the cells sitting under helper-named columns. -/
def dropHelperCells : List String → List ℚ → List ℚ
  | _, [] => []
  | [], v :: vs => v :: vs
  | c :: cs, v :: vs =>
    if isHelperName c then dropHelperCells cs vs
    else v :: dropHelperCells cs vs

/-- Embedding of `compute_trimmed_df`: on an empty table the assignment
`df["frame_distance"] = [0.0]` raises (caught by the per-file loop), hence
`none`.  Otherwise the table is truncated after the last frame whose
rolling mean exceeds the threshold, and the helper columns added during
the computation are dropped again (removing any equally named input
column with them). -/
def compute_trimmed_df (dist : List ℚ → List ℚ → ℚ) (df : DF) : Option DF :=
  if df.rows.isEmpty then none
  else
    some ⟨df.cols.filter (fun c => !(isHelperName c)),
      (trimRows df.rows (lastO (crossedOf dist df))).map (dropHelperCells df.cols)⟩

/-! ### Concrete tables used by the witnesses and counterexamples -/

/-- A table with no `*1` cell anywhere. -/
def noStarRaws : List (List String) := [["a", "b"], ["Field", "Field"], ["3", "4"]]

/-- A file whose header yields an unknown-labelled column: the coordinate
cell `W` is neither `field` nor an axis. -/
def unkCrashRaws : List (List String) := [["*1"], ["W"]]

/-- The end-to-end example of the specification: header pair
`*1,,*2,,,` over `X,Y,Field,X,Y,Z`, marker 1 missing in the first data
row while marker 2 is present. -/
def ex9Raws : List (List String) :=
  [["*1", "", "*2", "", "", ""],
   ["X", "Y", "Field", "X", "Y", "Z"],
   ["", "", "0", "10", "20", "30"],
   ["1", "2", "1", "4", "5", "6"]]

/-- A small header whose cleaned output exists: marker 1 X plus Frame. -/
def c3Raws : List (List String) := [["*1", ""], ["X", "Field"], ["7", "0"]]

/-- A file whose extra marker carries a zero-padded tag `*06`: its columns
are labelled `06_X/06_Y/06_Z`, classified extra (int value 6), but the
drop list holds `6_X/6_Y/6_Z` and never matches them. -/
def c3BadRaws : List (List String) :=
  [["*1", "", "", "*06", "", ""],
   ["X", "Y", "Z", "X", "Y", "Z"],
   ["1", "2", "3", "4", "5", "6"]]

/-- Columns for the two-extras-two-missing-bases scenario: Frame, base
markers 1 and 2, extra markers 6 and 7. -/
def cols12 : List Col :=
  [Col.Frame,
   Col.marker ['1'] Axis.X, Col.marker ['1'] Axis.Y, Col.marker ['1'] Axis.Z,
   Col.marker ['2'] Axis.X, Col.marker ['2'] Axis.Y, Col.marker ['2'] Axis.Z,
   Col.marker ['6'] Axis.X, Col.marker ['6'] Axis.Y, Col.marker ['6'] Axis.Z,
   Col.marker ['7'] Axis.X, Col.marker ['7'] Axis.Y, Col.marker ['7'] Axis.Z]

/-- A frame in which both base triplets are missing and both extras are
fully present. -/
def rowC1 : List Cell :=
  [Cell.raw "0",
   Cell.missing, Cell.missing, Cell.missing,
   Cell.missing, Cell.missing, Cell.missing,
   Cell.num 1, Cell.num 2, Cell.num 3,
   Cell.num 4, Cell.num 5, Cell.num 6]

/-- Columns for the no-overwrite witness: base marker 1, extra marker 6. -/
def cols6 : List Col :=
  [Col.marker ['1'] Axis.X, Col.marker ['1'] Axis.Y, Col.marker ['1'] Axis.Z,
   Col.marker ['6'] Axis.X, Col.marker ['6'] Axis.Y, Col.marker ['6'] Axis.Z]

/-- A frame where base marker 1 is partially present and extra marker 6 is
fully present. -/
def row6 : List Cell :=
  [Cell.num 9, Cell.missing, Cell.missing, Cell.num 1, Cell.num 2, Cell.num 3]

/-- A concrete distance function (L1 norm) for the trimming witnesses. -/
def exDist (a b : List ℚ) : ℚ := ((a.zip b).map (fun p => |p.1 - p.2|)).foldl (· + ·) 0

/-- A tiny clean table for the trimming witnesses. -/
def exDF : DF := ⟨["1_X"], [[0], [1]]⟩

/-! ### Helper lemmas -/

theorem memD_iff {α : Type} [DecidableEq α] (a : α) (l : List α) : memD a l = true ↔ a ∈ l := by
  induction l with
  | nil => simp [memD]
  | cons b t ih =>
    by_cases hab : a = b
    · subst hab; simp [memD]
    · simp [memD, hab, ih, List.mem_cons]

theorem mem_sortedInsert (n m : Nat) (l : List Nat) :
    m ∈ sortedInsert n l ↔ m = n ∨ m ∈ l := by
  induction l with
  | nil => simp [sortedInsert]
  | cons a t ih =>
    simp only [sortedInsert]
    split_ifs with h1 h2
    · simp [List.mem_cons]
    · subst h2
      simp only [List.mem_cons]
      tauto
    · simp only [List.mem_cons, ih]
      tauto

theorem mem_sortedUnique (m : Nat) (l : List Nat) : m ∈ sortedUnique l ↔ m ∈ l := by
  induction l with
  | nil => simp [sortedUnique]
  | cons a t ih =>
    show m ∈ sortedInsert a (sortedUnique t) ↔ _
    rw [mem_sortedInsert, ih]
    simp [List.mem_cons]

theorem filter_keep_all {α : Type} (l : List α) (p : α → Bool) (h : ∀ a ∈ l, p a = true) :
    l.filter p = l := by
  induction l with
  | nil => rfl
  | cons a t ih =>
    rw [List.filter_cons, if_pos (h a (List.mem_cons_self a t)),
      ih (fun b hb => h b (List.mem_cons_of_mem a hb))]

theorem map_id_of {α : Type} (l : List α) (f : α → α) (h : ∀ a ∈ l, f a = a) :
    l.map f = l := by
  induction l with
  | nil => rfl
  | cons a t ih =>
    rw [List.map_cons, h a (List.mem_cons_self a t),
      ih (fun b hb => h b (List.mem_cons_of_mem a hb))]

theorem isExtraCol_nil (c : Col) : isExtraCol [] c = false := by
  cases c <;> rfl

theorem dropRowCells_nil (cols : List Col) (r : List Cell) :
    dropRowCells [] cols r = r := by
  induction cols generalizing r with
  | nil => cases r <;> rfl
  | cons c cs ih =>
    cases r with
    | nil => rfl
    | cons v vs =>
      show (if isExtraCol [] c then dropRowCells [] cs vs else v :: dropRowCells [] cs vs) = v :: vs
      rw [isExtraCol_nil, if_neg Bool.false_ne_true, ih vs]

theorem getCol_setCol_ne (cols : List Col) (row : List Cell) (c t : Col) (v : Cell)
    (h : c ≠ t) : getCol cols (setCol cols row c v) t = getCol cols row t := by
  induction cols generalizing row with
  | nil => cases row <;> rfl
  | cons d cs ih =>
    cases row with
    | nil => rfl
    | cons x xs =>
      show getCol (d :: cs) ((if d = c then v else x) :: setCol cs xs c v) t = _
      by_cases hdc : d = c
      · have hdt : d ≠ t := by rw [hdc]; exact h
        rw [if_pos hdc]
        show (if d = t then some v else getCol cs (setCol cs xs c v) t) = _
        rw [if_neg hdt]
        show _ = (if d = t then some x else getCol cs xs t)
        rw [if_neg hdt]
        exact ih xs
      · rw [if_neg hdc]
        show (if d = t then some x else getCol cs (setCol cs xs c v) t) = _
        by_cases hdt : d = t
        · rw [if_pos hdt]
          show _ = (if d = t then some x else getCol cs xs t)
          rw [if_pos hdt]
        · rw [if_neg hdt]
          show _ = (if d = t then some x else getCol cs xs t)
          rw [if_neg hdt]
          exact ih xs

/-- One base marker with a non-missing axis in the snapshot is never the
target of a fill, so its cells survive `fillBase` untouched. -/
theorem fillBase_getCol (cols : List Col) (snapshot : List Cell) (vx vy vz : Cell)
    (bs : List Nat) (cur : List Cell) (s : List Char)
    (hb : notnaO (getCol cols snapshot (Col.marker s Axis.X)) = true ∨
          notnaO (getCol cols snapshot (Col.marker s Axis.Y)) = true ∨
          notnaO (getCol cols snapshot (Col.marker s Axis.Z)) = true)
    (ax : Axis) :
    getCol cols (fillBase cols snapshot vx vy vz bs cur) (Col.marker s ax) =
      getCol cols cur (Col.marker s ax) := by
  induction bs with
  | nil => rfl
  | cons b' bs' ih =>
    show getCol cols
        (if baseFree cols snapshot b' then
          setCol cols (setCol cols (setCol cols cur (mCol b' Axis.X) vx)
            (mCol b' Axis.Y) vy) (mCol b' Axis.Z) vz
        else fillBase cols snapshot vx vy vz bs' cur) (Col.marker s ax) = _
    by_cases hf : baseFree cols snapshot b' = true
    · rw [if_pos hf]
      have hss : natToDigits b' ≠ s := by
        intro he
        simp only [baseFree, Bool.and_eq_true, mCol] at hf
        obtain ⟨⟨⟨⟨⟨-, -⟩, -⟩, hX⟩, hY⟩, hZ⟩ := hf
        rw [he] at hX hY hZ
        rcases hb with h1 | h1 | h1
        · rw [notnaO, hX, Bool.not_true] at h1; exact Bool.false_ne_true h1
        · rw [notnaO, hY, Bool.not_true] at h1; exact Bool.false_ne_true h1
        · rw [notnaO, hZ, Bool.not_true] at h1; exact Bool.false_ne_true h1
      rw [getCol_setCol_ne _ _ _ _ _ (by simp [mCol, hss]),
        getCol_setCol_ne _ _ _ _ _ (by simp [mCol, hss]),
        getCol_setCol_ne _ _ _ _ _ (by simp [mCol, hss])]
    · rw [if_neg hf]
      exact ih

/-- The same preservation through the whole extra-marker loop of one row:
all eligibility checks read the snapshot, so they are unaffected by the
accumulated writes. -/
theorem fillRowGo_getCol (cols : List Col) (base : List Nat) (snapshot : List Cell)
    (s : List Char)
    (hb : notnaO (getCol cols snapshot (Col.marker s Axis.X)) = true ∨
          notnaO (getCol cols snapshot (Col.marker s Axis.Y)) = true ∨
          notnaO (getCol cols snapshot (Col.marker s Axis.Z)) = true)
    (es : List Nat) (cur : List Cell) (ax : Axis) :
    getCol cols (fillRowGo cols base snapshot es cur) (Col.marker s ax) =
      getCol cols cur (Col.marker s ax) := by
  induction es generalizing cur with
  | nil => rfl
  | cons e es' ih =>
    show getCol cols (fillRowGo cols base snapshot es' _) _ = _
    rw [ih]
    by_cases hc : (notnaO (getCol cols snapshot (mCol e Axis.X)) &&
        notnaO (getCol cols snapshot (mCol e Axis.Y)) &&
        notnaO (getCol cols snapshot (mCol e Axis.Z))) = true
    · rw [if_pos hc]
      exact fillBase_getCol cols snapshot _ _ _ base cur s hb ax
    · rw [if_neg hc]

/-! ### Claims -/

/-- C10: gap filling never overwrites originally present data.  For any
table layout, base and extra sets and row, a marker column family with at
least one non-missing parsed axis value in the input row — in particular
every base marker, whose columns carry the tag `str(b)` — keeps its whole
X, Y, Z triplet unchanged through the gap-filling pass; only triplets that
are entirely missing in the parsed input row can be written (the
eligibility check requires all three cells missing and reads the pre-fill
snapshot of the row, and rows are processed independently). -/
theorem C10_no_overwrite (cols : List Col) (base extras : List Nat) (row : List Cell)
    (s : List Char)
    (hb : notnaO (getCol cols row (Col.marker s Axis.X)) = true ∨
          notnaO (getCol cols row (Col.marker s Axis.Y)) = true ∨
          notnaO (getCol cols row (Col.marker s Axis.Z)) = true)
    (ax : Axis) :
    getCol cols (fillRow cols base extras row) (Col.marker s ax) =
      getCol cols row (Col.marker s ax) :=
  fillRowGo_getCol cols base row s hb extras row ax

/-- Witness for C10 at a concrete frame: base marker 1 has X present, so
its triplet survives the pass unchanged. -/
theorem C10_no_overwrite_witness :
    getCol cols6 (fillRow cols6 [1] [6] row6) (Col.marker ['1'] Axis.X) = some (Cell.num 9) ∧
    getCol cols6 (fillRow cols6 [1] [6] row6) (Col.marker ['1'] Axis.Y) = some Cell.missing ∧
    getCol cols6 (fillRow cols6 [1] [6] row6) (Col.marker ['1'] Axis.Z) = some Cell.missing := by
  have h := C10_no_overwrite cols6 [1] [6] row6 ['1'] (Or.inl (by decide))
  refine ⟨?_, ?_, ?_⟩
  · rw [h Axis.X]; decide
  · rw [h Axis.Y]; decide
  · rw [h Axis.Z]; decide

/-- C1 (amended): the enumeration is ascending and each fully present
extra marker copies its triplet into the first base marker whose triplet is
entirely missing in the pre-fill snapshot of the row, at most one base
write per extra.  Because the snapshot, not the current row state, is
consulted (`df.iterrows` yields copies), two available extras facing two
missing bases both target the lower base slot: the higher extra overwrites
the lower one there and the second base stays missing. -/
theorem C1_snapshot_fill (x1 y1 z1 x2 y2 z2 : ℚ) :
    fillRow cols12 [1, 2] [6, 7]
      [Cell.raw "0",
       Cell.missing, Cell.missing, Cell.missing,
       Cell.missing, Cell.missing, Cell.missing,
       Cell.num x1, Cell.num y1, Cell.num z1,
       Cell.num x2, Cell.num y2, Cell.num z2] =
      [Cell.raw "0",
       Cell.num x2, Cell.num y2, Cell.num z2,
       Cell.missing, Cell.missing, Cell.missing,
       Cell.num x1, Cell.num y1, Cell.num z1,
       Cell.num x2, Cell.num y2, Cell.num z2] := rfl

/-- C1 counterexample: with extras 6 and 7 both available and bases 1 and 2
both missing in the same frame, the code leaves base 2 missing and base 1
holds the values of extra 7 — not the claimed pairing in which extra 6
fills base 1 and extra 7 fills base 2. -/
theorem C1_counterexample :
    fillRow cols12 [1, 2] [6, 7] rowC1 =
      [Cell.raw "0",
       Cell.num 4, Cell.num 5, Cell.num 6,
       Cell.missing, Cell.missing, Cell.missing,
       Cell.num 1, Cell.num 2, Cell.num 3,
       Cell.num 4, Cell.num 5, Cell.num 6] ∧
    fillRow cols12 [1, 2] [6, 7] rowC1 ≠
      [Cell.raw "0",
       Cell.num 1, Cell.num 2, Cell.num 3,
       Cell.num 4, Cell.num 5, Cell.num 6,
       Cell.num 1, Cell.num 2, Cell.num 3,
       Cell.num 4, Cell.num 5, Cell.num 6] := by
  exact ⟨rfl, by decide⟩

/-- C5: `parse_val` on the three pinned examples, and totality: every
string maps to either a value or the missing marker. -/
theorem C5_parse_val_spec :
    parse_val "127.228.226" = some (127228.226 : ℚ) ∧
    parse_val "12.5" = some (12.5 : ℚ) ∧
    parse_val "abc" = none ∧
    ∀ s : String, parse_val s = none ∨ ∃ q : ℚ, parse_val s = some q := by
  refine ⟨?_, ?_, by decide, fun s => ?_⟩
  · have h : parse_val "127.228.226" = some ((127228 : ℚ) + 226 / 10 ^ 3) := rfl
    rw [h]; norm_num
  · have h : parse_val "12.5" = some ((12 : ℚ) + 5 / 10 ^ 1) := rfl
    rw [h]; norm_num
  · cases h : parse_val s with
    | none => exact Or.inl rfl
    | some q => exact Or.inr ⟨q, rfl⟩

/-- C2 is a code bug: on a table with no cell containing `*1`, `idxmax`
over the all-False match series returns row 0 instead of raising, so the
file is not rejected; row 0 is silently used as the marker header row and
a cleaned output is produced. -/
theorem C2_no_header_still_cleans :
    clean_csv_model [1] noStarRaws =
      Outcome.cleaned [Col.Frame, Col.Frame] [[Cell.raw "3", Cell.raw "4"]] ∧
    noStarRaws.all (fun r => r.all (fun s => !(containsSubChars star1 s.data))) = true := by
  exact ⟨by decide, by decide⟩

/-- C4 is a code bug: a file whose header yields an unknown-labelled column
makes `int("unk_pos".split("_")[0])` raise an uncaught ValueError, and the
batch loop has no handler, so the whole run aborts: the second, perfectly
processable file is never reached. -/
theorem C4_crash_aborts_batch :
    run_batch [1] [unkCrashRaws, noStarRaws] = ([Outcome.crash], true) ∧
    clean_csv_model [1] noStarRaws ≠ Outcome.crash := by
  exact ⟨by decide, by decide⟩

/-- C9 counterexample: on the header pair `*1,,*2,,,` over
`X,Y,Field,X,Y,Z` the `Field` cell sits in the same column as the `*2`
tag, and the `continue` in the labelling loop skips the tag, so no marker 2
column is ever created (nothing can donate marker 2 values to marker 1)
and a `1_Z` column is created — the column set is not Frame, 1_X, 1_Y. -/
theorem C9_counterexample :
    memD (Col.marker ['2'] Axis.X) (headerColsOf ex9Raws 0) = false ∧
    memD (Col.marker ['2'] Axis.Y) (headerColsOf ex9Raws 0) = false ∧
    memD (Col.marker ['2'] Axis.Z) (headerColsOf ex9Raws 0) = false ∧
    memD (Col.marker ['1'] Axis.Z) (headerColsOf ex9Raws 0) = true := by
  exact ⟨by decide, by decide, by decide, by decide⟩

/-- C9 (amended): on that header pair the derived columns are
1_X, 1_Y, Frame, 1_X, 1_Y, 1_Z — the marker 2 tag is lost to the Frame
classification, leaving duplicated 1_X and 1_Y labels — and on those
duplicated non-Frame labels the parse loop raises an uncaught reindex
ValueError, so the run aborts: no cleaned table (and in particular neither
the claimed fill nor the claimed Frame, 1_X, 1_Y column set) is ever
produced for this input. -/
theorem C9_end_to_end :
    headerColsOf ex9Raws 0 =
      [Col.marker ['1'] Axis.X, Col.marker ['1'] Axis.Y, Col.Frame,
       Col.marker ['1'] Axis.X, Col.marker ['1'] Axis.Y, Col.marker ['1'] Axis.Z] ∧
    clean_csv_model [1] ex9Raws = Outcome.crash := by
  exact ⟨by decide, by decide⟩

theorem filter_drop_all {α : Type} (l : List α) (p : α → Bool) (h : ∀ a ∈ l, p a = false) :
    l.filter p = [] := by
  induction l with
  | nil => rfl
  | cons a t ih =>
    rw [List.filter_cons, if_neg (by rw [h a (List.mem_cons_self a t)]; exact Bool.false_ne_true),
      ih (fun b hb => h b (List.mem_cons_of_mem a hb))]

/-- Any column surviving the extra-column drop of a successful
reconciliation is the Frame column or a marker axis column, and whenever
the marker tag is the canonical decimal rendering of its integer value the
value lies in the base set.  Zero-padded tags are exempt: the drop list is
built from `str(int)` and never matches them. -/
theorem reconcile_cols_spec {base : List Nat} {cols : List Col} {rows : List (List Cell)}
    {cs : List Col} {rs : List (List Cell)}
    (h : reconcile base cols rows = some (cs, rs)) :
    ∀ c ∈ cs, c = Col.Frame ∨
      ∃ s ax, c = Col.marker s ax ∧
        (s = natToDigits (digitsToNat s) → digitsToNat s ∈ base) := by
  by_cases hu : hasUnk cols = true
  · rw [reconcile, if_pos hu] at h
    exact Option.noConfusion h
  · rw [reconcile, if_neg hu] at h
    have hcs : cs = cols.filter (fun c => !(isExtraCol (extrasOf base cols) c)) :=
      (congrArg Prod.fst (Option.some.inj h)).symm
    intro c hc
    rw [hcs] at hc
    obtain ⟨hmem, hp⟩ := List.mem_filter.mp hc
    cases c with
    | Frame => exact Or.inl rfl
    | unk k => exact absurd (List.any_eq_true.mpr ⟨Col.unk k, hmem, rfl⟩) hu
    | marker s ax =>
      refine Or.inr ⟨s, ax, rfl, ?_⟩
      intro hcanon
      have hext : memD s ((extrasOf base cols).map natToDigits) = false := by
        cases hh : isExtraCol (extrasOf base cols) (Col.marker s ax) with
        | false => exact hh
        | true => rw [hh] at hp; exact absurd hp (by decide)
      by_contra hnb
      have hid : digitsToNat s ∈ collectIds cols :=
        List.mem_filterMap.mpr ⟨Col.marker s ax, hmem, rfl⟩
      have hsu : digitsToNat s ∈ sortedUnique (collectIds cols) :=
        (mem_sortedUnique _ _).mpr hid
      have hmb : memD (digitsToNat s) base = false := by
        cases hmb : memD (digitsToNat s) base with
        | false => rfl
        | true => exact absurd ((memD_iff _ _).mp hmb) hnb
      have hbe : digitsToNat s ∈ extrasOf base cols :=
        List.mem_filter.mpr ⟨hsu, by rw [hmb]; rfl⟩
      have hmap : s ∈ (extrasOf base cols).map natToDigits :=
        List.mem_map.mpr ⟨digitsToNat s, hbe, hcanon.symm⟩
      rw [(memD_iff _ _).mpr hmap] at hext
      exact Bool.noConfusion hext

/-- C3 (amended): whenever the per-file pipeline produces a cleaned table,
no unknown-labelled column survives and every marker column whose tag is
the canonical decimal rendering of its integer id belongs to a base
marker.  The amendment is forced by zero-padded tags: fill and drop
address extras through `str(int)`, so a column such as `06_X` is
classified extra yet never matches its own drop label and is retained in
the output. -/
theorem C3_output_columns (base : List Nat) (raws : List (List String))
    (cols' : List Col) (rows' : List (List Cell))
    (h : clean_csv_model base raws = Outcome.cleaned cols' rows') :
    ∀ c ∈ cols', c = Col.Frame ∨
      ∃ s ax, c = Col.marker s ax ∧
        (s = natToDigits (digitsToNat s) → digitsToNat s ∈ base) := by
  unfold clean_csv_model at h
  split at h
  · exact Outcome.noConfusion h
  · split at h
    · split at h
      · exact Outcome.noConfusion h
      · split at h
        · exact Outcome.noConfusion h
        · rename_i heq
          injection h with h1 h2
          subst h1
          exact reconcile_cols_spec heq
    · exact Outcome.noConfusion h

/-- C3 counterexample: the file with the zero-padded extra tag `*06`
cleans to a table that still contains the `06_X/06_Y/06_Z` columns, even
though `06` names an extra marker (its integer value 6 is not in the base
set [1]) — extra-marker axis columns are not always removed. -/
theorem C3_counterexample :
    clean_csv_model [1] c3BadRaws =
      Outcome.cleaned
        [Col.marker ['1'] Axis.X, Col.marker ['1'] Axis.Y, Col.marker ['1'] Axis.Z,
         Col.marker ['0', '6'] Axis.X, Col.marker ['0', '6'] Axis.Y,
         Col.marker ['0', '6'] Axis.Z]
        [[Cell.num 1, Cell.num 2, Cell.num 3, Cell.num 4, Cell.num 5, Cell.num 6]] ∧
    memD (digitsToNat ['0', '6']) [1] = false := by
  exact ⟨by decide, by decide⟩

/-- Witness for C3 on a concrete file whose cleaned output exists,
evaluated at its first output column. -/
theorem C3_output_columns_witness :
    Col.marker ['1'] Axis.X = Col.Frame ∨
      ∃ s ax, Col.marker ['1'] Axis.X = Col.marker s ax ∧
        (s = natToDigits (digitsToNat s) → digitsToNat s ∈ [1]) :=
  C3_output_columns [1] c3Raws [Col.marker ['1'] Axis.X, Col.Frame]
    [[Cell.num 7, Cell.raw "0"]] (by decide) (Col.marker ['1'] Axis.X) (by decide)

/-- C8: the reconciliation stage is idempotent on its own output.  On a
table whose columns are already only Frame and base-marker axis columns
(every marker tag names an integer in the base set), the discovered marker
set is contained in the base set, the extra set is empty, the gap fill
does nothing and the drop removes nothing: the table is returned
unchanged. -/
theorem C8_reconcile_idempotent (base : List Nat) (cols : List Col)
    (rows : List (List Cell))
    (h : ∀ c ∈ cols, c = Col.Frame ∨ ∃ s ax, digitsToNat s ∈ base ∧ c = Col.marker s ax) :
    reconcile base cols rows = some (cols, rows) := by
  have hu : hasUnk cols = false := by
    cases hh : hasUnk cols with
    | false => rfl
    | true =>
      obtain ⟨c, hc, hcu⟩ := List.any_eq_true.mp hh
      rcases h c hc with rfl | ⟨s, ax, hb, rfl⟩
      · exact Bool.noConfusion hcu
      · exact Bool.noConfusion hcu
  have hex : extrasOf base cols = [] := by
    rw [extrasOf]
    apply filter_drop_all
    intro m hm
    obtain ⟨c, hc, hcm⟩ := List.mem_filterMap.mp ((mem_sortedUnique _ _).mp hm)
    rcases h c hc with rfl | ⟨s, ax, hb, rfl⟩
    · exact Option.noConfusion hcm
    · have hbm : digitsToNat s = m := Option.some.inj hcm
      subst hbm
      rw [(memD_iff _ _).mpr hb]
      rfl
  rw [reconcile, if_neg (by rw [hu]; exact Bool.false_ne_true), hex]
  rw [filter_keep_all _ _ (fun c _ => by rw [isExtraCol_nil]; rfl)]
  rw [map_id_of _ (fillRow cols base []) (fun r _ => rfl)]
  rw [map_id_of _ _ (fun r _ => dropRowCells_nil cols r)]

/-- Witness for C8 on a concrete already-clean table. -/
theorem C8_reconcile_idempotent_witness :
    reconcile [1] [Col.Frame, Col.marker ['1'] Axis.X] [[Cell.raw "0", Cell.num 5]] =
      some ([Col.Frame, Col.marker ['1'] Axis.X], [[Cell.raw "0", Cell.num 5]]) := by
  apply C8_reconcile_idempotent
  intro c hc
  simp only [List.mem_cons, List.not_mem_nil, or_false] at hc
  rcases hc with rfl | rfl
  · exact Or.inl rfl
  · exact Or.inr ⟨['1'], Axis.X, by decide, rfl⟩

theorem nthO_none_of_le (l : List (Option ℚ)) (i : Nat) (h : l.length ≤ i) :
    nthO l i = none := by
  induction l generalizing i with
  | nil => rfl
  | cons x xs ih =>
    cases i with
    | zero => exact absurd h (by simp)
    | succ n => exact ih n (Nat.le_of_succ_le_succ h)

theorem exceeds_lt {rm : List (Option ℚ)} {t : ℚ} {i : Nat}
    (h : exceedsB rm t i = true) : i < rm.length := by
  by_contra hge
  rw [exceedsB, nthO_none_of_le rm i (Nat.le_of_not_lt hge)] at h
  exact Bool.noConfusion h

theorem mem_threshold_crossed {rm : List (Option ℚ)} {t : ℚ} {i : Nat} :
    i ∈ threshold_crossed rm t ↔ i < rm.length ∧ exceedsB rm t i = true := by
  rw [threshold_crossed]
  simp [List.mem_filter, List.mem_range]

theorem pairwise_crossed (rm : List (Option ℚ)) (t : ℚ) :
    (threshold_crossed rm t).Pairwise (· < ·) :=
  List.Pairwise.sublist (List.filter_sublist _) (List.pairwise_lt_range _)

theorem lastO_mem (l : List Nat) : ∀ a, lastO l = some a → a ∈ l := by
  induction l with
  | nil => exact fun a h => Option.noConfusion h
  | cons x xs ih =>
    intro a h
    cases xs with
    | nil =>
      have hxa : x = a := Option.some.inj h
      subst hxa
      exact List.mem_cons_self _ _
    | cons y ys => exact List.mem_cons_of_mem x (ih a h)

theorem lastO_le (l : List Nat) :
    l.Pairwise (· < ·) → ∀ a, lastO l = some a → ∀ x ∈ l, x ≤ a := by
  induction l with
  | nil => exact fun _ a _ x hx => absurd hx (List.not_mem_nil x)
  | cons b t ih =>
    intro hp a h x hx
    cases t with
    | nil =>
      have hba : b = a := Option.some.inj h
      have hxb : x = b := List.mem_singleton.mp hx
      subst hba; subst hxb
      exact le_refl _
    | cons c ts =>
      have hp' : (c :: ts).Pairwise (· < ·) := (List.pairwise_cons.mp hp).2
      have hlt : ∀ y ∈ c :: ts, b < y := (List.pairwise_cons.mp hp).1
      rcases List.mem_cons.mp hx with rfl | hx'
      · have hca : c ≤ a := ih hp' a h c (List.mem_cons_self _ _)
        exact le_of_lt (lt_of_lt_of_le (hlt c (List.mem_cons_self _ _)) hca)
      · exact ih hp' a h x hx'

theorem lastO_ne_none (l : List Nat) (h : l ≠ []) : ∃ a, lastO l = some a := by
  induction l with
  | nil => exact absurd rfl h
  | cons x xs ih =>
    cases xs with
    | nil => exact ⟨x, rfl⟩
    | cons y ys =>
      obtain ⟨a, ha⟩ := ih (by simp)
      exact ⟨a, ha⟩

theorem eq_nil_of_lastO_none (l : List Nat) (h : lastO l = none) : l = [] := by
  by_contra hne
  obtain ⟨a, ha⟩ := lastO_ne_none l hne
  rw [ha] at h
  exact Option.noConfusion h

theorem dropHelperCells_id (cols : List String) (h : ∀ c ∈ cols, isHelperName c = false)
    (r : List ℚ) : dropHelperCells cols r = r := by
  induction cols generalizing r with
  | nil => cases r <;> rfl
  | cons c cs ih =>
    cases r with
    | nil => rfl
    | cons v vs =>
      show (if isHelperName c then dropHelperCells cs vs else v :: dropHelperCells cs vs) = v :: vs
      rw [h c (List.mem_cons_self c cs), if_neg Bool.false_ne_true,
        ih (fun d hd => h d (List.mem_cons_of_mem c hd)) vs]

/-- C6: on a nonempty table without helper-named columns, the trimmer
succeeds; its output never has more rows than the input; when no frame
exceeds the movement threshold the output equals the input; and when a
last active frame exists the output is exactly the frames up to and
including the largest index whose rolling mean exceeds the threshold
(no later frame exceeds it), and such a last active frame exists whenever
any frame exceeds the threshold. -/
theorem C6_trim_behavior (dist : List ℚ → List ℚ → ℚ) (df : DF) (hne : df.rows ≠ [])
    (hcols : ∀ c ∈ df.cols, isHelperName c = false) :
    ∃ out, compute_trimmed_df dist df = some out ∧
      out.rows.length ≤ df.rows.length ∧
      ((∀ i, exceedsB (rmOf dist df) MOVEMENT_THRESHOLD i = false) → out = df) ∧
      (∀ la, lastO (crossedOf dist df) = some la →
        out.rows = df.rows.take (la + 1) ∧
        exceedsB (rmOf dist df) MOVEMENT_THRESHOLD la = true ∧
        ∀ j, la < j → exceedsB (rmOf dist df) MOVEMENT_THRESHOLD j = false) ∧
      (∀ i, exceedsB (rmOf dist df) MOVEMENT_THRESHOLD i = true →
        ∃ la, lastO (crossedOf dist df) = some la) := by
  obtain ⟨cols, rows⟩ := df
  have hni : ¬(rows.isEmpty = true) := by
    cases rows with
    | nil => exact absurd rfl hne
    | cons a l => exact fun hh => Bool.noConfusion hh
  have hfil : cols.filter (fun c => !(isHelperName c)) = cols :=
    filter_keep_all _ _ (fun c hc => by rw [hcols c hc]; rfl)
  have hdrop : ∀ r, dropHelperCells cols r = r := dropHelperCells_id cols hcols
  cases hl : lastO (crossedOf dist ⟨cols, rows⟩) with
  | none =>
    refine ⟨⟨cols, rows⟩, ?_, le_refl _, fun _ => rfl, ?_, ?_⟩
    · rw [compute_trimmed_df, if_neg hni, hl]
      simp only [trimRows]
      rw [hfil, map_id_of _ _ (fun r _ => hdrop r)]
    · intro la hla
      exact Option.noConfusion hla
    · intro i hi
      exfalso
      have hic : i ∈ crossedOf dist ⟨cols, rows⟩ :=
        mem_threshold_crossed.mpr ⟨exceeds_lt hi, hi⟩
      rw [eq_nil_of_lastO_none _ hl] at hic
      exact absurd hic (List.not_mem_nil i)
  | some la =>
    have hmem : la ∈ crossedOf dist ⟨cols, rows⟩ := lastO_mem _ la hl
    have hex : exceedsB (rmOf dist ⟨cols, rows⟩) MOVEMENT_THRESHOLD la = true :=
      (mem_threshold_crossed.mp hmem).2
    refine ⟨⟨cols, rows.take (la + 1)⟩, ?_, ?_, ?_, ?_, fun i _ => ⟨la, rfl⟩⟩
    · rw [compute_trimmed_df, if_neg hni, hl]
      simp only [trimRows]
      rw [hfil, map_id_of _ _ (fun r _ => hdrop r)]
    · show (rows.take (la + 1)).length ≤ rows.length
      rw [List.length_take]
      exact min_le_right _ _
    · intro hno
      rw [hno la] at hex
      exact Bool.noConfusion hex
    · intro la' hla'
      have heq : la = la' := Option.some.inj hla'
      subst heq
      refine ⟨rfl, hex, ?_⟩
      intro j hj
      cases hexj : exceedsB (rmOf dist ⟨cols, rows⟩) MOVEMENT_THRESHOLD j with
      | false => rfl
      | true =>
        have hjc : j ∈ crossedOf dist ⟨cols, rows⟩ :=
          mem_threshold_crossed.mpr ⟨exceeds_lt hexj, hexj⟩
        have hle := lastO_le _ (pairwise_crossed _ _) la hl j hjc
        exact absurd hj (Nat.not_lt.mpr hle)

/-- Witness for C6 on a concrete short table (the rolling window never
fills, so the table is returned whole). -/
theorem C6_trim_behavior_witness :
    ∃ out, compute_trimmed_df exDist exDF = some out ∧
      out.rows.length ≤ exDF.rows.length := by
  obtain ⟨out, h1, h2, -, -, -⟩ := C6_trim_behavior exDist exDF (by decide) (by decide)
  exact ⟨out, h1, h2⟩

/-- C7: the trimmer output never contains the internal helper columns, and
on any input without helper-named columns (every CleanTable-shaped input)
the output column list is exactly the input column list: nothing is added,
removed or reordered. -/
theorem C7_column_layout (dist : List ℚ → List ℚ → ℚ) (df out : DF)
    (h : compute_trimmed_df dist df = some out) :
    (∀ c ∈ out.cols, isHelperName c = false) ∧
    ((∀ c ∈ df.cols, isHelperName c = false) → out.cols = df.cols) := by
  rw [compute_trimmed_df] at h
  by_cases he : df.rows.isEmpty = true
  · rw [if_pos he] at h
    exact Option.noConfusion h
  · rw [if_neg he] at h
    have hcols : out.cols = df.cols.filter (fun c => !(isHelperName c)) :=
      (congrArg DF.cols (Option.some.inj h)).symm
    constructor
    · intro c hc
      rw [hcols] at hc
      have hp := (List.mem_filter.mp hc).2
      cases hh : isHelperName c with
      | false => rfl
      | true => rw [hh] at hp; exact absurd hp (by decide)
    · intro hin
      rw [hcols]
      exact filter_keep_all _ _ (fun c hc => by rw [hin c hc]; rfl)

/-- Witness for C7 on a concrete table. -/
theorem C7_column_layout_witness :
    (∀ c ∈ exDF.cols, isHelperName c = false) ∧
    ((∀ c ∈ exDF.cols, isHelperName c = false) → exDF.cols = exDF.cols) :=
  C7_column_layout exDist exDF exDF (by decide)
